import Mathlib

/-! Shallow embedding of the GitHub user activity CLI (`github-activity.js`)
together with proofs checking the repository's specification claims.

JavaScript platform behaviour that the program leans on (string trimming,
`parseInt`, `Date` parsing and NaN-propagating comparison, truthiness,
template interpolation of `undefined`) is modelled explicitly by the `js*`
helpers below; each notes the platform rule it captures. -/

namespace GithubActivity

/-- Single-quote character, used by several of the program's message templates. -/
def sq : String := String.singleton '\''

/-- JS whitespace recognised by `String.prototype.trim` and by the leading
whitespace skipping of `parseInt` (ASCII subset; the program only ever reads
console lines). -/
def isJsWS (c : Char) : Bool :=
  c == ' ' || c == '\t' || c == '\n' || c == '\r'

/-- List-level trimming of leading and trailing whitespace. -/
def trimChars (l : List Char) : List Char :=
  ((l.dropWhile isJsWS).reverse.dropWhile isJsWS).reverse

/-- Models JS `s.trim()`. -/
def jsTrim (s : String) : String := (trimChars s.data).asString

/-- Models JS `s.includes(sub)` (substring containment). -/
def jsIncludes (s sub : String) : Bool := decide (sub.data <:+: s.data)

/-- Models JS template interpolation of a possibly-`undefined` string
(`undefined` renders as the text "undefined"). -/
def jsStr : Option String → String
  | none => "undefined"
  | some s => s

/-- Models JS template interpolation of a possibly-`undefined` number. -/
def jsNum : Option Int → String
  | none => "undefined"
  | some n => toString n

/-- Models JS truthiness of a possibly-`undefined` string: `undefined` and
the empty string are falsy, every other string is truthy. -/
def truthy : Option String → Bool
  | none => false
  | some s => !(s == "")

/-- ASCII lower-casing of one character. -/
def lowerChar (c : Char) : Char :=
  if 'A' ≤ c && c ≤ 'Z' then Char.ofNat (c.toNat + 32) else c

/-- Models JS `s.toLowerCase()` (ASCII console input). -/
def jsToLowerCase (s : String) : String := (s.data.map lowerChar).asString

/-- Numeric value of a leading run of decimal digits; `none` when there is
no digit (JS `parseInt` then yields NaN). -/
def decDigitsVal (cs : List Char) : Option Int :=
  let ds := cs.takeWhile Char.isDigit
  if ds.isEmpty then none
  else some (ds.foldl (fun a c => a * 10 + ((c.toNat : Int) - 48)) 0)

/-- Hexadecimal digit test for `parseInt`'s `0x` form. -/
def isHexDigit (c : Char) : Bool :=
  c.isDigit || ('a' ≤ c && c ≤ 'f') || ('A' ≤ c && c ≤ 'F')

/-- Value of one hexadecimal digit. -/
def hexDigitVal (c : Char) : Int :=
  if c.isDigit then (c.toNat : Int) - 48
  else if 'a' ≤ c && c ≤ 'f' then (c.toNat : Int) - 87
  else (c.toNat : Int) - 55

/-- Numeric value of a leading run of hexadecimal digits. -/
def hexDigitsVal (cs : List Char) : Option Int :=
  let ds := cs.takeWhile isHexDigit
  if ds.isEmpty then none
  else some (ds.foldl (fun a c => a * 16 + hexDigitVal c) 0)

/-- `parseInt` after sign handling: a `0x`/`0X` prefix switches to base 16,
otherwise a leading run of decimal digits is read. -/
def parseUnsigned (cs : List Char) : Option Int :=
  match cs with
  | '0' :: 'x' :: rest => hexDigitsVal rest
  | '0' :: 'X' :: rest => hexDigitsVal rest
  | _ => decDigitsVal cs

/-- The optional-sign step of `parseInt`. -/
def parseSigned : List Char → Option Int
  | '-' :: rest => (parseUnsigned rest).map (fun n => -n)
  | '+' :: rest => parseUnsigned rest
  | cs => parseUnsigned cs

/-- Models JS `parseInt(s)` with the default radix: leading whitespace is
skipped, an optional sign is read, then digits; `none` models NaN. -/
def jsParseInt (s : String) : Option Int :=
  parseSigned (s.data.dropWhile isJsWS)

/-- Leap year rule (Gregorian). -/
def isLeap (y : Nat) : Bool := (y % 4 == 0 && y % 100 != 0) || y % 400 == 0

/-- Day count of a month, used to validate calendar dates the way the JS
ISO date parser does. -/
def daysInMonth (y m : Nat) : Nat :=
  if m == 2 then (if isLeap y then 29 else 28)
  else if m == 4 || m == 6 || m == 9 || m == 11 then 30
  else 31

/-- Value of a decimal digit character, `none` for a non-digit. -/
def digitVal (c : Char) : Option Nat :=
  if c.isDigit then some (c.toNat - 48) else none

/-- Two-digit field of a timestamp. -/
def num2 (a b : Char) : Option Nat := do
  let x ← digitVal a
  let y ← digitVal b
  pure (x * 10 + y)

/-- Four-digit field of a timestamp. -/
def num4 (a b c d : Char) : Option Nat := do
  let x ← num2 a b
  let y ← num2 c d
  pure (x * 100 + y)

/-- Order-faithful encoding of a validated UTC calendar time: lexicographic
in (year, month, day, hour, minute, second), hence ordered exactly like the
epoch-milliseconds value JS would compute; the absolute epoch scale is
abstracted (only comparisons of date values occur in the program). -/
def mkDateVal (y m d h mi s : Nat) : Option Int :=
  if 1 ≤ m && m ≤ 12 && 1 ≤ d && d ≤ daysInMonth y m && h ≤ 23 && mi ≤ 59 && s ≤ 59 then
    some ((((((y : Int) * 13 + m) * 32 + d) * 24 + h) * 60 + mi) * 60 + s)
  else none

/-- Models `new Date(s)` on the two timestamp shapes this program meets:
`YYYY-MM-DD` (parsed as UTC midnight) and `YYYY-MM-DDTHH:MM:SSZ` (GitHub's
`created_at`). Every other string models Invalid Date (`none`, a NaN time
value in JS). -/
def jsDate (s : String) : Option Int :=
  match s.data with
  | [y1, y2, y3, y4, '-', m1, m2, '-', a1, a2] => do
      let y ← num4 y1 y2 y3 y4
      let m ← num2 m1 m2
      let d ← num2 a1 a2
      mkDateVal y m d 0 0 0
  | [y1, y2, y3, y4, '-', m1, m2, '-', a1, a2, 'T', h1, h2, ':', n1, n2, ':', s1, s2, 'Z'] => do
      let y ← num4 y1 y2 y3 y4
      let m ← num2 m1 m2
      let d ← num2 a1 a2
      let h ← num2 h1 h2
      let mi ← num2 n1 n2
      let s ← num2 s1 s2
      mkDateVal y m d h mi s
  | _ => none

/-- Models the JS comparison `dateA < dateB`: false whenever either side is
Invalid Date (NaN compares false). -/
def jsDateBefore : Option Int → Option Int → Bool
  | some a, some b => a < b
  | _, _ => false

/-- Models the JS comparison `dateA > dateB`: false whenever either side is
Invalid Date. -/
def jsDateAfter : Option Int → Option Int → Bool
  | some a, some b => b < a
  | _, _ => false

/-! ## Data model

The event record, with exactly the fields the program reads. Fields that the
GitHub payload may omit are `Option`s (`none` models an absent property,
i.e. `undefined` on access). `type`, `repo.name`, `payload` and `created_at`
are always present on real event records and the program accesses them
unguarded, so they are plain fields. -/

/-- One commit entry of a `PushEvent` payload. -/
structure Commit where
  sha : Option String
  message : Option String
  deriving DecidableEq, Repr

/-- One label of an issue. -/
structure Label where
  name : Option String
  deriving DecidableEq, Repr

/-- The issue object of an `IssuesEvent` payload. -/
structure Issue where
  number : Option Int
  title : Option String
  labels : Option (List Label)
  html_url : Option String
  deriving DecidableEq, Repr

/-- The pull-request object of a `PullRequestEvent` payload. -/
structure PullRequest where
  number : Option Int
  title : Option String
  additions : Option Int
  deletions : Option Int
  html_url : Option String
  deriving DecidableEq, Repr

/-- The fork target of a `ForkEvent` payload. -/
structure Forkee where
  full_name : Option String
  deriving DecidableEq, Repr

/-- The release object of a `ReleaseEvent` payload. -/
structure Release where
  tag_name : Option String
  name : Option String
  html_url : Option String
  deriving DecidableEq, Repr

/-- Type-dependent payload bag; every field optional, as in the raw JSON. -/
structure Payload where
  commits : Option (List Commit) := none
  ref_type : Option String := none
  ref : Option String := none
  action : Option String := none
  issue : Option Issue := none
  pull_request : Option PullRequest := none
  forkee : Option Forkee := none
  release : Option Release := none
  deriving DecidableEq, Repr

/-- The repository object of an event. -/
structure Repo where
  name : String
  deriving DecidableEq, Repr

/-- One activity record as consumed by the program. -/
structure Event where
  type : String
  repo : Repo
  payload : Payload
  created_at : String
  deriving DecidableEq, Repr

/-- Filter criteria; `none` models an absent (never-assigned) field of the
JS `filterCriteria` object. -/
structure FilterCriteria where
  type : Option String := none
  repo : Option String := none
  dateFrom : Option String := none
  dateTo : Option String := none
  deriving DecidableEq, Repr

/-- Display configuration. `eventsPerPage` is a JS number, which the
reconfigure flow can set to NaN; `none` models NaN. -/
structure DisplayConfig where
  colors : Bool
  dateFormat : String
  detailedView : Bool
  eventsPerPage : Option Int
  outputDir : String
  deriving DecidableEq, Repr

/-- The `defaultConfig` constant of the program. -/
def defaultConfig : DisplayConfig :=
  { colors := true
    dateFormat := "local"
    detailedView := true
    eventsPerPage := some 30
    outputDir := "./github-activity-logs" }

/-- The typed errors `fetchGitHubActivity` rejects with, one constructor per
`reject(new Error(...))` site. -/
inductive FetchError where
  | notFound (username : String)
  | rateLimit
  | httpError (code : Nat)
  | parseError
  | connectionError (msg : String)
  deriving DecidableEq, Repr

/-- The `error.message` string each rejection carries, exactly as built by
the corresponding template in the source. -/
def FetchError.message : FetchError → String
  | .notFound username => "User " ++ sq ++ username ++ sq ++ " not found"
  | .rateLimit => "API rate limit exceeded. Please try again later."
  | .httpError code => "HTTP Error: " ++ toString code
  | .parseError => "Failed to parse GitHub API response"
  | .connectionError msg => "Failed to connect: " ++ msg

/-- A JSON value, for the body of an HTTP response and for exported files. -/
inductive Json where
  | null
  | bool (b : Bool)
  | num (n : Int)
  | str (s : String)
  | arr (elems : List Json)
  | obj (fields : List (String × Json))

/-- One HTTP response as observed by the fetcher's callback: the status code
and the accumulated body text. (The `x-ratelimit-remaining` header only
feeds a non-fatal console warning, which is a diagnostic side effect with no
influence on the resolved or rejected value, and is not modelled.) -/
structure HttpResponse where
  statusCode : Nat
  body : String

/-! ## Operations (one definition per source function) -/

/-- Models `formatDate`: `toISOString` throws a RangeError on an Invalid
Date, while `toLocaleString` renders the text "Invalid Date"; the rendering
of a valid date is abstracted to its encoded value (no claim inspects the
rendered timestamp text). -/
def formatDate (dateString : String) (format : String) : Except Unit String :=
  if format == "iso" then
    match jsDate dateString with
    | some t => .ok (toString t)
    | none => .error ()
  else
    .ok (match jsDate dateString with
          | some t => toString t
          | none => "Invalid Date")

/-- ANSI codes from the `colors` table of the source. -/
def colorReset : String := "\x1b[0m"

/-- Bright ANSI code. -/
def colorBright : String := "\x1b[1m"

/-- Per-event-type color and icon, from the `eventSettings` table. -/
structure EventSetting where
  color : String
  icon : String

/-- The `eventSettings` lookup with its `default` fallback (icon strings are
transcribed byte-for-byte from the source file). -/
def eventSettings (type : String) : EventSetting :=
  if type == "PushEvent" then ⟨"\x1b[32m", "ðŸ“"⟩
  else if type == "CreateEvent" then ⟨"\x1b[36m", "âœ¨"⟩
  else if type == "IssuesEvent" then ⟨"\x1b[33m", "ðŸ›"⟩
  else if type == "PullRequestEvent" then ⟨"\x1b[35m", "ðŸ”„"⟩
  else if type == "WatchEvent" then ⟨"\x1b[34m", "â­"⟩
  else if type == "ForkEvent" then ⟨"\x1b[36m", "ðŸ”±"⟩
  else if type == "DeleteEvent" then ⟨"\x1b[31m", "ðŸ—‘ï¸"⟩
  else if type == "ReleaseEvent" then ⟨"\x1b[32m", "ðŸ“¦"⟩
  else if type == "CommentEvent" then ⟨"\x1b[33m", "ðŸ’¬"⟩
  else ⟨"\x1b[0m", "ðŸ”§"⟩

/-- The `capitalize` helper (falsy strings give the empty string). -/
def capitalize (str : Option String) : String :=
  match str with
  | none => ""
  | some s =>
    match s.data with
    | [] => ""
    | c :: rest => (c.toUpper :: rest).asString

/-- Models `formatEventTitle`, the per-type title table (the JS `switch`
is a first-match chain on `type`). -/
def formatEventTitle (event : Event) : String :=
  let type := event.type
  let payload := event.payload
  let repoName := event.repo.name
  if type == "PushEvent" then
    "Pushed " ++ toString ((payload.commits.map List.length).getD 0) ++ " commit(s) to " ++ repoName
  else if type == "CreateEvent" then
    "Created " ++ jsStr payload.ref_type ++
      (if truthy payload.ref then " " ++ sq ++ payload.ref.getD "" ++ sq else "") ++
      " in " ++ repoName
  else if type == "IssuesEvent" then
    capitalize payload.action ++ " issue #" ++ jsNum (payload.issue.bind Issue.number) ++ " in " ++ repoName
  else if type == "PullRequestEvent" then
    capitalize payload.action ++ " pull request #" ++
      jsNum (payload.pull_request.bind PullRequest.number) ++ " in " ++ repoName
  else if type == "WatchEvent" then
    "Starred " ++ repoName
  else if type == "ForkEvent" then
    "Forked " ++ repoName ++ " to " ++ jsStr (payload.forkee.bind Forkee.full_name)
  else if type == "DeleteEvent" then
    "Deleted " ++ jsStr payload.ref_type ++ " " ++ sq ++ jsStr payload.ref ++ sq ++ " from " ++ repoName
  else if type == "ReleaseEvent" then
    capitalize payload.action ++ " release " ++ jsStr (payload.release.bind Release.tag_name) ++ " in " ++ repoName
  else
    type ++ " on " ++ repoName

/-- The `colorize` closure of `formatEvent`. -/
def colorize (config : DisplayConfig) (text color : String) : String :=
  if config.colors then color ++ text ++ colorReset else text

/-- The commit lines of a `PushEvent` detail block:
`commits.map(c => ...c.sha.slice(0, 7)...c.message.split('\n')[0]...).join('')`.
Accessing `sha` or `message` of a commit that lacks it is a TypeError,
modelled as `.error ()`. -/
def commitLines : List Commit → Except Unit String
  | [] => .ok ""
  | c :: cs =>
    match c.sha, c.message with
    | some sha, some message =>
      (commitLines cs).map (fun rest =>
        "\n    - " ++ sha.take 7 ++ " " ++ ((message.splitOn "\n").headD "") ++ rest)
    | _, _ => .error ()

/-- The `details` computation of `formatEvent` (the `switch` inside
`if (config.detailedView)`). Destructuring-then-accessing a missing
`issue`/`pull_request`/`release` object is a TypeError (`.error ()`).
`join(', ')` renders an `undefined` label name as the empty string, and
`|| 'none'` replaces an empty joined string. -/
def eventDetails (event : Event) (config : DisplayConfig) : Except Unit String :=
  if !config.detailedView then .ok ""
  else if event.type == "PushEvent" then
    commitLines (event.payload.commits.getD [])
  else if event.type == "IssuesEvent" then
    match event.payload.issue with
    | none => .error ()
    | some issue =>
      let joined := String.intercalate ", " ((issue.labels.getD []).map (fun l => l.name.getD ""))
      .ok ("\n    Title: " ++ jsStr issue.title ++
           "\n    Labels: " ++ (if joined == "" then "none" else joined) ++
           "\n    URL: " ++ jsStr issue.html_url)
  else if event.type == "PullRequestEvent" then
    match event.payload.pull_request with
    | none => .error ()
    | some pr =>
      .ok ("\n    Title: " ++ jsStr pr.title ++
           "\n    Changes: +" ++ toString (pr.additions.getD 0) ++ " -" ++ toString (pr.deletions.getD 0) ++
           "\n    URL: " ++ jsStr pr.html_url)
  else if event.type == "ReleaseEvent" then
    match event.payload.release with
    | none => .error ()
    | some release =>
      .ok ("\n    Tag: " ++ jsStr release.tag_name ++
           "\n    Name: " ++ jsStr release.name ++
           "\n    URL: " ++ jsStr release.html_url)
  else .ok ""

/-- Models `formatEvent`. The timestamp is formatted first (line 53 of the
source), then the detail block, then the assembled colorized line; a
TypeError or RangeError anywhere surfaces as `.error ()`. -/
def formatEvent (event : Event) (config : DisplayConfig) : Except Unit String :=
  match formatDate event.created_at config.dateFormat with
  | .error () => .error ()
  | .ok timestamp =>
    let settings := eventSettings event.type
    let timeStr := colorize config ("[" ++ timestamp ++ "]") colorBright
    match eventDetails event config with
    | .error () => .error ()
    | .ok details =>
      .ok (colorize config
            (timeStr ++ " " ++ settings.icon ++ " " ++ formatEventTitle event ++ " " ++ details)
            settings.color)

/-- Models `fetchGitHubActivity`'s response handler: the status-code
classification on a received response. `parseJson` stands for the platform
`JSON.parse`, `none` modelling a thrown SyntaxError. (Transport failures
before a response reject with `FetchError.connectionError` and do not reach
this handler.) -/
def fetchGitHubActivity (parseJson : String → Option Json) (username : String)
    (res : HttpResponse) : Except FetchError Json :=
  if res.statusCode == 200 then
    match parseJson res.body with
    | some value => .ok value
    | none => .error .parseError
  else if res.statusCode == 404 then .error (.notFound username)
  else if res.statusCode == 403 then .error .rateLimit
  else .error (.httpError res.statusCode)

/-- Models `filterEvents`'s predicate (the early-return chain of the
`events.filter` callback, in source order). -/
def filterPred (criteria : FilterCriteria) (event : Event) : Bool :=
  if truthy criteria.type && event.type != criteria.type.getD "" then false
  else if truthy criteria.repo && !(jsIncludes event.repo.name (criteria.repo.getD "")) then false
  else if truthy criteria.dateFrom &&
      jsDateBefore (jsDate event.created_at) (jsDate (criteria.dateFrom.getD "")) then false
  else if truthy criteria.dateTo &&
      jsDateAfter (jsDate event.created_at) (jsDate (criteria.dateTo.getD "")) then false
  else true

/-- Models `filterEvents`. -/
def filterEvents (events : List Event) (criteria : FilterCriteria) : List Event :=
  events.filter (filterPred criteria)

/-- Models `showMenu`: prints the menu and resolves with the trimmed answer. -/
def showMenu (answer : String) : String := jsTrim answer

/-- Models `showFilterMenu`: resolves with the trimmed answer. -/
def showFilterMenu (answer : String) : String := jsTrim answer

/-- Models the inline prompt readers of `main`'s filter sub-menu (event type
and repository questions), which resolve with `answer.trim()`. -/
def readFilterValue (answer : String) : String := jsTrim answer

/-- Models the date-range prompt reader: `answer.trim().split(' ')`. -/
def readDateRange (answer : String) : List String := (jsTrim answer).splitOn " "

/-- The four reconfiguration answers, in the prompt order of the `questions`
object (`colors`, `dateFormat`, `detailedView`, `eventsPerPage`). -/
structure ConfigAnswers where
  colors : String
  dateFormat : String
  detailedView : String
  eventsPerPage : String
  deriving DecidableEq, Repr

/-- Models `configureDisplay`'s update loop: a blank (whitespace-only)
answer leaves the key unchanged; `eventsPerPage` stores
`Math.min(100, Math.max(10, parseInt(answer)))` (NaN propagates through
`Math.max`/`Math.min`, modelled by `Option.map`); boolean keys store
`answer.toLowerCase() === 'true'` of the UNtrimmed answer; `dateFormat`
stores the untrimmed answer verbatim. -/
def configureDisplay (config : DisplayConfig) (a : ConfigAnswers) : DisplayConfig :=
  let c1 := if jsTrim a.colors != "" then
      { config with colors := jsToLowerCase a.colors == "true" } else config
  let c2 := if jsTrim a.dateFormat != "" then
      { c1 with dateFormat := a.dateFormat } else c1
  let c3 := if jsTrim a.detailedView != "" then
      { c2 with detailedView := jsToLowerCase a.detailedView == "true" } else c2
  if jsTrim a.eventsPerPage != "" then
    { c3 with eventsPerPage := ((jsParseInt a.eventsPerPage).map (max 10)).map (min 100) }
  else c3

/-- The per-user activity summary built by `getUserActivity` on success. -/
structure UserActivity where
  username : String
  repos : List (String × List Event)
  deriving DecidableEq, Repr

/-- The `events.reduce` grouping of `getUserActivity`: a JS object keyed by
repository name in first-seen order, each key collecting its events in feed
order. -/
def groupByRepo (events : List Event) : List (String × List Event) :=
  events.foldl (fun acc e =>
    if acc.any (fun p => p.1 == e.repo.name) then
      acc.map (fun p => if p.1 == e.repo.name then (p.1, p.2 ++ [e]) else p)
    else acc ++ [(e.repo.name, [e])]) []

/-- Models `getUserActivity` over the outcome of its awaited fetch: on
success it resolves with the grouped summary; a caught error is swallowed
into a `null` result exactly when `error.message.includes('not found')`,
and rethrown otherwise. -/
def getUserActivity (username : String) (fetched : Except FetchError (List Event)) :
    Except FetchError (Option UserActivity) :=
  match fetched with
  | .ok events => .ok (some ⟨username, groupByRepo events⟩)
  | .error e =>
    if jsIncludes e.message "not found" then .ok none
    else .error e

/-! ## File exporter

`saveToFile` writes `JSON.stringify(events, null, 2)`. `JSON.stringify`
followed by `JSON.parse` is the identity on JSON-representable data (the
events came from `JSON.parse` of the API body), so the written file is
modelled at the JSON value level: the content is the JSON encoding of the
event list, with `undefined` (absent) properties omitted exactly as
`JSON.stringify` omits them, and "parsing the file back" is the `decode*`
reader. The timestamped filename and the `mkdir` side effect are
external-collaborator details no claim touches. -/

/-- One optional JSON object property: absent when the field is `undefined`,
as `JSON.stringify` omits such properties. -/
def optF (k : String) : Option Json → List (String × Json)
  | none => []
  | some j => [(k, j)]

/-- JSON encoding of a commit entry. -/
def commitToJson (c : Commit) : Json :=
  .obj (optF "sha" (c.sha.map .str) ++ optF "message" (c.message.map .str))

/-- JSON encoding of a label. -/
def labelToJson (l : Label) : Json :=
  .obj (optF "name" (l.name.map .str))

/-- The property list of an encoded issue. -/
def issueFields (i : Issue) : List (String × Json) :=
  optF "number" (i.number.map .num) ++ optF "title" (i.title.map .str) ++
    optF "labels" (i.labels.map (fun ls => .arr (ls.map labelToJson))) ++
    optF "html_url" (i.html_url.map .str)

/-- JSON encoding of an issue object. -/
def issueToJson (i : Issue) : Json := .obj (issueFields i)

/-- JSON encoding of a pull-request object. -/
def prToJson (p : PullRequest) : Json :=
  .obj (optF "number" (p.number.map .num) ++ optF "title" (p.title.map .str) ++
        optF "additions" (p.additions.map .num) ++ optF "deletions" (p.deletions.map .num) ++
        optF "html_url" (p.html_url.map .str))

/-- JSON encoding of a fork target. -/
def forkeeToJson (f : Forkee) : Json :=
  .obj (optF "full_name" (f.full_name.map .str))

/-- JSON encoding of a release object. -/
def releaseToJson (r : Release) : Json :=
  .obj (optF "tag_name" (r.tag_name.map .str) ++ optF "name" (r.name.map .str) ++
        optF "html_url" (r.html_url.map .str))

/-- The property list of an encoded payload. -/
def payloadFields (p : Payload) : List (String × Json) :=
  optF "commits" (p.commits.map (fun cs => .arr (cs.map commitToJson))) ++
    optF "ref_type" (p.ref_type.map .str) ++ optF "ref" (p.ref.map .str) ++
    optF "action" (p.action.map .str) ++ optF "issue" (p.issue.map issueToJson) ++
    optF "pull_request" (p.pull_request.map prToJson) ++
    optF "forkee" (p.forkee.map forkeeToJson) ++
    optF "release" (p.release.map releaseToJson)

/-- JSON encoding of a payload. -/
def payloadToJson (p : Payload) : Json := .obj (payloadFields p)

/-- JSON encoding of one event record. -/
def eventToJson (e : Event) : Json :=
  .obj [("type", .str e.type), ("repo", .obj [("name", .str e.repo.name)]),
        ("payload", payloadToJson e.payload), ("created_at", .str e.created_at)]

/-- Property lookup on a parsed JSON object. -/
def getF (fields : List (String × Json)) (k : String) : Option Json :=
  (fields.find? (fun p => p.1 == k)).map (fun p => p.2)

/-- String extraction from a JSON value. -/
def asStr : Json → Option String
  | .str s => some s
  | _ => none

/-- Number extraction from a JSON value. -/
def asNum : Json → Option Int
  | .num n => some n
  | _ => none

/-- Array extraction from a JSON value. -/
def asArr : Json → Option (List Json)
  | .arr xs => some xs
  | _ => none

/-- Object extraction from a JSON value. -/
def asObj : Json → Option (List (String × Json))
  | .obj fs => some fs
  | _ => none

/-- Sequential reader of a JSON array's elements (the `JSON.parse` view of
an encoded list: every element must decode). -/
def decodeList {α : Type} (dec : Json → Option α) : List Json → Option (List α)
  | [] => some []
  | j :: js => (dec j).bind (fun x => (decodeList dec js).map (fun xs => x :: xs))

/-- Reader for a commit entry of the exported file. -/
def decodeCommit (j : Json) : Option Commit :=
  (asObj j).map (fun fs =>
    ⟨(getF fs "sha").bind asStr, (getF fs "message").bind asStr⟩)

/-- Reader for a label. -/
def decodeLabel (j : Json) : Option Label :=
  (asObj j).map (fun fs => ⟨(getF fs "name").bind asStr⟩)

/-- Reader for an issue object. -/
def decodeIssue (j : Json) : Option Issue :=
  (asObj j).map (fun fs =>
    ⟨(getF fs "number").bind asNum, (getF fs "title").bind asStr,
     (getF fs "labels").bind (fun v => (asArr v).bind (decodeList decodeLabel)),
     (getF fs "html_url").bind asStr⟩)

/-- Reader for a pull-request object. -/
def decodePR (j : Json) : Option PullRequest :=
  (asObj j).map (fun fs =>
    ⟨(getF fs "number").bind asNum, (getF fs "title").bind asStr,
     (getF fs "additions").bind asNum, (getF fs "deletions").bind asNum,
     (getF fs "html_url").bind asStr⟩)

/-- Reader for a fork target. -/
def decodeForkee (j : Json) : Option Forkee :=
  (asObj j).map (fun fs => ⟨(getF fs "full_name").bind asStr⟩)

/-- Reader for a release object. -/
def decodeRelease (j : Json) : Option Release :=
  (asObj j).map (fun fs =>
    ⟨(getF fs "tag_name").bind asStr, (getF fs "name").bind asStr,
     (getF fs "html_url").bind asStr⟩)

/-- Reader for a payload. -/
def decodePayload (j : Json) : Option Payload :=
  (asObj j).map (fun fs =>
    ⟨(getF fs "commits").bind (fun v => (asArr v).bind (decodeList decodeCommit)),
     (getF fs "ref_type").bind asStr, (getF fs "ref").bind asStr,
     (getF fs "action").bind asStr,
     (getF fs "issue").bind decodeIssue,
     (getF fs "pull_request").bind decodePR,
     (getF fs "forkee").bind decodeForkee,
     (getF fs "release").bind decodeRelease⟩)

/-- Reader for one event record of the exported file. -/
def decodeEvent (j : Json) : Option Event := do
  let fs ← asObj j
  let type ← (getF fs "type").bind asStr
  let repoFs ← (getF fs "repo").bind asObj
  let repoName ← (getF repoFs "name").bind asStr
  let payload ← (getF fs "payload").bind decodePayload
  let created ← (getF fs "created_at").bind asStr
  pure ⟨type, ⟨repoName⟩, payload, created⟩

/-- Reader for the whole exported file: a JSON array of event records. -/
def decodeEventList (j : Json) : Option (List Event) :=
  (asArr j).bind (decodeList decodeEvent)

/-- Models `saveToFile`'s written content: the JSON serialization of exactly
the `events` argument (`JSON.stringify(events, null, 2)`). -/
def saveToFile (events : List Event) : Json :=
  .arr (events.map eventToJson)

/-- The in-memory state of `main`'s session loop. -/
structure SessionState where
  username : String
  currentPage : Int
  currentEvents : List Event
  config : DisplayConfig
  filterCriteria : FilterCriteria

/-- Models `main`'s dispatch `case '4'`:
`await saveToFile(currentEvents, username, config)` — the content handed to
the exporter is the raw `currentEvents`, not the `filteredEvents` view. -/
def mainSaveContent (st : SessionState) : Json :=
  saveToFile st.currentEvents

/-! ## The spec's filter contract, for the refinement comparison (C3)

`specPass` is written from the spec's words (§4.3): an event passes iff
each present criterion holds, with inclusive date bounds on the parsed
timestamps. It is compared against `filterEvents`, which is written from
the source. -/

/-- Spec reading of the type criterion: unset, or the type equals it. -/
def typeSpec (ct : Option String) (event : Event) : Bool :=
  match ct with
  | none => true
  | some t => event.type == t

/-- Spec reading of the repo criterion: unset, or the name contains it. -/
def repoSpec (cr : Option String) (event : Event) : Bool :=
  match cr with
  | none => true
  | some r => jsIncludes event.repo.name r

/-- Spec reading of the lower date bound: unset, or timestamp ≥ dateFrom
(inclusive). -/
def dateFromSpec (cf : Option String) (event : Event) : Bool :=
  match cf with
  | none => true
  | some s => (jsDate s).getD 0 ≤ (jsDate event.created_at).getD 0

/-- Spec reading of the upper date bound: unset, or timestamp ≤ dateTo
(inclusive). -/
def dateToSpec (cg : Option String) (event : Event) : Bool :=
  match cg with
  | none => true
  | some s => (jsDate event.created_at).getD 0 ≤ (jsDate s).getD 0

/-- The filter predicate as the spec words it. -/
def specPass (criteria : FilterCriteria) (event : Event) : Bool :=
  typeSpec criteria.type event && repoSpec criteria.repo event &&
    dateFromSpec criteria.dateFrom event && dateToSpec criteria.dateTo event

/-! ## Helper lemmas -/

/-- A NaN left operand makes the JS `<` comparison false. -/
theorem jsDateBefore_none_left (y : Option Int) : jsDateBefore none y = false := by
  cases y <;> rfl

/-- A NaN left operand makes the JS `>` comparison false. -/
theorem jsDateAfter_none_left (y : Option Int) : jsDateAfter none y = false := by
  cases y <;> rfl

/-- `filterPred` as the conjunction of the four negated rejection tests. -/
theorem filterPred_eq_conj (c : FilterCriteria) (e : Event) :
    filterPred c e =
      (!(truthy c.type && e.type != c.type.getD "") &&
       (!(truthy c.repo && !(jsIncludes e.repo.name (c.repo.getD ""))) &&
        (!(truthy c.dateFrom &&
            jsDateBefore (jsDate e.created_at) (jsDate (c.dateFrom.getD ""))) &&
         !(truthy c.dateTo &&
            jsDateAfter (jsDate e.created_at) (jsDate (c.dateTo.getD ""))))))  := by
  unfold filterPred
  cases h1 : truthy c.type && e.type != c.type.getD "" <;>
    cases h2 : truthy c.repo && !(jsIncludes e.repo.name (c.repo.getD "")) <;>
      cases h3 : truthy c.dateFrom &&
          jsDateBefore (jsDate e.created_at) (jsDate (c.dateFrom.getD "")) <;>
        cases h4 : truthy c.dateTo &&
            jsDateAfter (jsDate e.created_at) (jsDate (c.dateTo.getD "")) <;>
          simp

/-- The type test of the source agrees with the spec's, for a non-empty
criterion. -/
theorem typeCond_eq (ct : Option String) (e : Event) (h : ∀ t, ct = some t → t ≠ "") :
    (!(truthy ct && e.type != ct.getD "")) = typeSpec ct e := by
  cases ct with
  | none => simp [truthy, typeSpec]
  | some t =>
    have ht := h t rfl
    simp [truthy, typeSpec, ht, bne]

/-- The repo test of the source agrees with the spec's (an empty repo
criterion is falsy in the source and matches everything in the spec, so the
two agree without any restriction). -/
theorem repoCond_eq (cr : Option String) (e : Event) :
    (!(truthy cr && !(jsIncludes e.repo.name (cr.getD "")))) = repoSpec cr e := by
  cases cr with
  | none => simp [truthy, repoSpec]
  | some r =>
    by_cases hr : r = ""
    · subst hr
      simp [truthy, repoSpec, jsIncludes, List.nil_infix]
    · simp [truthy, repoSpec, hr]

/-- The dateFrom test of the source agrees with the spec's inclusive lower
bound when both timestamps parse. -/
theorem dateFromCond_eq (cf : Option String) (e : Event) (te : Int)
    (hev : jsDate e.created_at = some te)
    (h : ∀ s, cf = some s → (jsDate s).isSome = true) :
    (!(truthy cf && jsDateBefore (jsDate e.created_at) (jsDate (cf.getD "")))) =
      dateFromSpec cf e := by
  cases cf with
  | none => simp [truthy, dateFromSpec]
  | some f =>
    obtain ⟨fv, hfv⟩ := Option.isSome_iff_exists.mp (h f rfl)
    have hne : f ≠ "" := by
      intro hf
      rw [hf] at hfv
      exact Option.noConfusion ((rfl : jsDate "" = none) ▸ hfv)
    simp only [dateFromSpec, Option.getD_some, truthy, hev, hfv, jsDateBefore]
    by_cases hlt : te < fv
    · have hge : ¬ (fv ≤ te) := by omega
      simp [hne, hlt, hge]
    · have hge : fv ≤ te := by omega
      simp [hne, hlt, hge]

/-- The dateTo test of the source agrees with the spec's inclusive upper
bound when both timestamps parse. -/
theorem dateToCond_eq (cg : Option String) (e : Event) (te : Int)
    (hev : jsDate e.created_at = some te)
    (h : ∀ s, cg = some s → (jsDate s).isSome = true) :
    (!(truthy cg && jsDateAfter (jsDate e.created_at) (jsDate (cg.getD "")))) =
      dateToSpec cg e := by
  cases cg with
  | none => simp [truthy, dateToSpec]
  | some g =>
    obtain ⟨gv, hgv⟩ := Option.isSome_iff_exists.mp (h g rfl)
    have hne : g ≠ "" := by
      intro hg
      rw [hg] at hgv
      exact Option.noConfusion ((rfl : jsDate "" = none) ▸ hgv)
    simp only [dateToSpec, Option.getD_some, truthy, hev, hgv, jsDateAfter]
    by_cases hlt : gv < te
    · have hge : ¬ (te ≤ gv) := by omega
      simp [hne, hlt, hge]
    · have hge : te ≤ gv := by omega
      simp [hne, hlt, hge]

/-- Pointwise agreement of the source predicate with the spec predicate. -/
theorem filterPred_eq_specPass (criteria : FilterCriteria) (event : Event)
    (hty : ∀ t, criteria.type = some t → t ≠ "")
    (hfrom : ∀ s, criteria.dateFrom = some s → (jsDate s).isSome = true)
    (hto : ∀ s, criteria.dateTo = some s → (jsDate s).isSome = true)
    (hev : (jsDate event.created_at).isSome = true) :
    filterPred criteria event = specPass criteria event := by
  obtain ⟨te, hte⟩ := Option.isSome_iff_exists.mp hev
  rw [filterPred_eq_conj,
    typeCond_eq criteria.type event hty,
    repoCond_eq criteria.repo event,
    dateFromCond_eq criteria.dateFrom event te hte hfrom,
    dateToCond_eq criteria.dateTo event te hte hto,
    specPass]
  simp [Bool.and_assoc]

/-! ## Claim theorems -/

/-- C3: for every event list and filter criteria (present criterion fields
non-empty, date bounds and event timestamps parseable), `filterEvents`
returns the stable-order subsequence of exactly the events satisfying the
spec's conjunction of the four criterion tests, with both date bounds
inclusive (`specPass` compares parsed timestamps with ≤/≥); the input list
is untouched (the result is a sublist of the unchanged input; the embedding
of `Array.prototype.filter` is pure). -/
theorem C3_filterEvents_spec (events : List Event) (criteria : FilterCriteria)
    (hty : ∀ t, criteria.type = some t → t ≠ "")
    (hfrom : ∀ s, criteria.dateFrom = some s → (jsDate s).isSome = true)
    (hto : ∀ s, criteria.dateTo = some s → (jsDate s).isSome = true)
    (hev : ∀ e ∈ events, (jsDate e.created_at).isSome = true) :
    filterEvents events criteria = events.filter (specPass criteria) ∧
    (filterEvents events criteria).Sublist events := by
  constructor
  · exact List.filter_congr
      (fun e he => filterPred_eq_specPass criteria e hty hfrom hto (hev e he))
  · exact List.filter_sublist events

/-- Witness for C3 at a concrete criteria/event pair: all four criterion
fields set, one event inside the range. -/
theorem C3_filterEvents_spec_witness :
    (∀ t, (some "WatchEvent" : Option String) = some t → t ≠ "") ∧
    (∀ s, (some "2024-01-01" : Option String) = some s → (jsDate s).isSome = true) ∧
    (∀ s, (some "2024-12-31" : Option String) = some s → (jsDate s).isSome = true) ∧
    (∀ e ∈ [(⟨"WatchEvent", ⟨"acme/widgets"⟩, {}, "2024-06-01"⟩ : Event)],
      (jsDate e.created_at).isSome = true) ∧
    (filterEvents [⟨"WatchEvent", ⟨"acme/widgets"⟩, {}, "2024-06-01"⟩]
        ⟨some "WatchEvent", some "acme", some "2024-01-01", some "2024-12-31"⟩ =
      [(⟨"WatchEvent", ⟨"acme/widgets"⟩, {}, "2024-06-01"⟩ : Event)].filter
        (specPass ⟨some "WatchEvent", some "acme", some "2024-01-01", some "2024-12-31"⟩) ∧
     (filterEvents [⟨"WatchEvent", ⟨"acme/widgets"⟩, {}, "2024-06-01"⟩]
        ⟨some "WatchEvent", some "acme", some "2024-01-01", some "2024-12-31"⟩).Sublist
       [⟨"WatchEvent", ⟨"acme/widgets"⟩, {}, "2024-06-01"⟩]) :=
  ⟨fun t h => by cases h; decide,
   fun s h => by cases h; decide,
   fun s h => by cases h; decide,
   by decide,
   C3_filterEvents_spec _ _
     (fun t h => by cases h; decide)
     (fun s h => by cases h; decide)
     (fun s h => by cases h; decide)
     (by decide)⟩

/-- C8: the filter obeys the identity law (all criteria unset returns the
input unchanged) and the idempotence law (applying twice with the same
criteria equals applying once), the latter for every criteria. -/
theorem C8_filter_laws (events : List Event) (criteria : FilterCriteria) :
    filterEvents events {} = events ∧
    filterEvents (filterEvents events criteria) criteria = filterEvents events criteria := by
  constructor
  · have h : ∀ e : Event, filterPred {} e = true := fun e => rfl
    exact List.filter_eq_self.mpr (fun a _ => h a)
  · simp [filterEvents, List.filter_filter]

/-- C10: an event whose `created_at` does not parse (`new Date` gives an
Invalid Date, NaN time) vacuously passes both date-range tests: the filter
behaves on it exactly as if no date bounds were set, so it can only be
excluded by the type or repo criteria. -/
theorem C10_invalid_date_passes (criteria : FilterCriteria) (event : Event)
    (h : jsDate event.created_at = none) :
    filterPred criteria event =
      filterPred { criteria with dateFrom := none, dateTo := none } event := by
  unfold filterPred
  simp [h, jsDateBefore_none_left, jsDateAfter_none_left, truthy]

/-- Witness for C10 at an unparseable timestamp and fully-set criteria. -/
theorem C10_invalid_date_passes_witness :
    jsDate "not-a-date" = none ∧
    filterPred ⟨some "WatchEvent", none, some "2024-01-01", some "2024-12-31"⟩
        ⟨"WatchEvent", ⟨"a/b"⟩, {}, "not-a-date"⟩ =
      filterPred ⟨some "WatchEvent", none, none, none⟩
        ⟨"WatchEvent", ⟨"a/b"⟩, {}, "not-a-date"⟩ :=
  ⟨by decide, C10_invalid_date_passes _ _ (by decide)⟩

/-- C5: the fixed per-type title table: `WatchEvent` renders
"Starred acme/widgets"; `PushEvent` renders the commit count (an absent
commits list counts as 0); any type outside the table renders
"TYPE on REPO". -/
theorem C5_formatEventTitle_table (repoName t : String) (p : Payload) (cs : List Commit)
    (ht : t ≠ "PushEvent" ∧ t ≠ "CreateEvent" ∧ t ≠ "IssuesEvent" ∧ t ≠ "PullRequestEvent" ∧
          t ≠ "WatchEvent" ∧ t ≠ "ForkEvent" ∧ t ≠ "DeleteEvent" ∧ t ≠ "ReleaseEvent") :
    formatEventTitle ⟨"WatchEvent", ⟨"acme/widgets"⟩, p, ""⟩ = "Starred acme/widgets" ∧
    formatEventTitle ⟨"PushEvent", ⟨repoName⟩, { commits := some cs }, ""⟩ =
      "Pushed " ++ toString cs.length ++ " commit(s) to " ++ repoName ∧
    formatEventTitle ⟨"PushEvent", ⟨repoName⟩, {}, ""⟩ = "Pushed 0 commit(s) to " ++ repoName ∧
    formatEventTitle ⟨t, ⟨repoName⟩, p, ""⟩ = t ++ " on " ++ repoName := by
  obtain ⟨h1, h2, h3, h4, h5, h6, h7, h8⟩ := ht
  refine ⟨rfl, rfl, ?_, ?_⟩
  · show ("Pushed " ++ toString ((Option.map List.length (none : Option (List Commit))).getD 0) ++ " commit(s) to ") ++ repoName = "Pushed 0 commit(s) to " ++ repoName
    exact congrArg (fun s => s ++ repoName) (by decide)
  simp [formatEventTitle, h1, h2, h3, h4, h5, h6, h7, h8]

/-! ## Whitespace and parseInt lemmas (for C4 and C9) -/

/-- Dropping a predicate-true block before a list. -/
theorem dropWhile_append_of_all (p : Char → Bool) (xs ys : List Char)
    (h : ∀ x ∈ xs, p x = true) :
    (xs ++ ys).dropWhile p = ys.dropWhile p := by
  induction xs with
  | nil => rfl
  | cons c cs ih =>
    have hc := h c (by simp)
    simp only [List.cons_append, List.dropWhile_cons, hc, if_true]
    exact ih (fun x hx => h x (by simp [hx]))

/-- `dropWhile` distributes over an append when the first part survives. -/
theorem dropWhile_append_of_ne_nil (p : Char → Bool) (l ys : List Char)
    (h : l.dropWhile p ≠ []) :
    (l ++ ys).dropWhile p = l.dropWhile p ++ ys := by
  induction l with
  | nil => simp at h
  | cons c cs ih =>
    by_cases hc : p c
    · simp only [List.dropWhile_cons, hc, if_true] at h
      simp only [List.cons_append, List.dropWhile_cons, hc, if_true]
      exact ih h
    · simp only [List.cons_append, List.dropWhile_cons, hc, if_false]
      simp [hc]

/-- `takeWhile` ignores an appended block on which the predicate fails. -/
theorem takeWhile_append_of_all_neg (q : Char → Bool) (l w : List Char)
    (hw : ∀ c ∈ w, q c = false) :
    (l ++ w).takeWhile q = l.takeWhile q := by
  induction l with
  | nil =>
    cases w with
    | nil => rfl
    | cons d w' => simp [List.takeWhile_cons, hw d (by simp)]
  | cons c cs ih =>
    by_cases hc : q c <;> simp [List.takeWhile_cons, hc, ih]

/-- A JS whitespace character is not a decimal digit. -/
theorem isJsWS_not_digit (c : Char) (h : isJsWS c = true) : c.isDigit = false := by
  simp only [isJsWS, Bool.or_eq_true, beq_iff_eq] at h
  rcases h with ((h | h) | h) | h <;> subst h <;> decide

/-- A JS whitespace character is not a hexadecimal digit. -/
theorem isJsWS_not_hex (c : Char) (h : isJsWS c = true) : isHexDigit c = false := by
  simp only [isJsWS, Bool.or_eq_true, beq_iff_eq] at h
  rcases h with ((h | h) | h) | h <;> subst h <;> decide

/-- A JS whitespace character differs from any non-whitespace character. -/
theorem isJsWS_ne (c : Char) (h : isJsWS c = true) (d : Char) (hd : isJsWS d = false) :
    c ≠ d := by
  intro he
  subst he
  rw [h] at hd
  exact Bool.noConfusion hd

/-- Appended trailing whitespace does not change a decimal-digit run. -/
theorem decDigitsVal_append_ws (l w : List Char) (hw : ∀ c ∈ w, isJsWS c = true) :
    decDigitsVal (l ++ w) = decDigitsVal l := by
  unfold decDigitsVal
  rw [takeWhile_append_of_all_neg _ _ _ (fun c hc => isJsWS_not_digit c (hw c hc))]

/-- Appended trailing whitespace does not change a hexadecimal-digit run. -/
theorem hexDigitsVal_append_ws (l w : List Char) (hw : ∀ c ∈ w, isJsWS c = true) :
    hexDigitsVal (l ++ w) = hexDigitsVal l := by
  unfold hexDigitsVal
  rw [takeWhile_append_of_all_neg _ _ _ (fun c hc => isJsWS_not_hex c (hw c hc))]

/-- `parseUnsigned` on a list not starting with the hex marker digit. -/
theorem parseUnsigned_cons_ne (c : Char) (cs : List Char) (h : c ≠ '0') :
    parseUnsigned (c :: cs) = decDigitsVal (c :: cs) := by
  unfold parseUnsigned
  split
  · rename_i rest heq
    injection heq with h1 _
    exact absurd h1 h
  · rename_i rest heq
    injection heq with h1 _
    exact absurd h1 h
  · rfl

/-- `parseUnsigned` on a list starting with the digit 0 whose second
character is not a hex marker. -/
theorem parseUnsigned_zero_two (c2 : Char) (rest : List Char)
    (hx : c2 ≠ 'x') (hX : c2 ≠ 'X') :
    parseUnsigned ('0' :: c2 :: rest) = decDigitsVal ('0' :: c2 :: rest) := by
  unfold parseUnsigned
  split
  · rename_i r heq
    injection heq with _ h2
    injection h2 with h2 _
    exact absurd h2 hx
  · rename_i r heq
    injection heq with _ h2
    injection h2 with h2 _
    exact absurd h2 hX
  · rfl

/-- Appended trailing whitespace does not change `parseUnsigned`. -/
theorem parseUnsigned_append_ws (cs w : List Char) (hw : ∀ c ∈ w, isJsWS c = true) :
    parseUnsigned (cs ++ w) = parseUnsigned cs := by
  rcases cs with _ | ⟨c, cs'⟩
  · simp only [List.nil_append]
    cases w with
    | nil => rfl
    | cons d w' =>
      have hd := hw d (by simp)
      rw [parseUnsigned_cons_ne d w' (isJsWS_ne d hd '0' (by decide))]
      show decDigitsVal ([] ++ (d :: w')) = parseUnsigned []
      rw [decDigitsVal_append_ws [] (d :: w') hw]
      rfl
  · by_cases hc : c = '0'
    · subst hc
      rcases cs' with _ | ⟨c2, rest⟩
      · cases w with
        | nil => rfl
        | cons d w' =>
          have hd := hw d (by simp)
          rw [List.cons_append, List.nil_append,
            parseUnsigned_zero_two d w' (isJsWS_ne d hd 'x' (by decide))
              (isJsWS_ne d hd 'X' (by decide))]
          show decDigitsVal (['0'] ++ (d :: w')) = parseUnsigned ['0']
          rw [decDigitsVal_append_ws ['0'] (d :: w') hw]
          rfl
      · by_cases hx : c2 = 'x'
        · subst hx
          show hexDigitsVal (rest ++ w) = hexDigitsVal rest
          exact hexDigitsVal_append_ws rest w hw
        · by_cases hX : c2 = 'X'
          · subst hX
            show hexDigitsVal (rest ++ w) = hexDigitsVal rest
            exact hexDigitsVal_append_ws rest w hw
          · rw [show ('0' :: c2 :: rest) ++ w = '0' :: c2 :: (rest ++ w) from rfl,
              parseUnsigned_zero_two c2 (rest ++ w) hx hX,
              parseUnsigned_zero_two c2 rest hx hX,
              show ('0' :: c2 :: (rest ++ w)) = ('0' :: c2 :: rest) ++ w from rfl,
              decDigitsVal_append_ws _ w hw]
    · rw [show (c :: cs') ++ w = c :: (cs' ++ w) from rfl,
        parseUnsigned_cons_ne c (cs' ++ w) hc, parseUnsigned_cons_ne c cs' hc,
        show (c :: (cs' ++ w)) = (c :: cs') ++ w from rfl,
        decDigitsVal_append_ws _ w hw]

/-- `parseSigned` on a list not starting with a sign. -/
theorem parseSigned_cons_ne (c : Char) (cs : List Char)
    (hm : c ≠ '-') (hp : c ≠ '+') :
    parseSigned (c :: cs) = parseUnsigned (c :: cs) := by
  unfold parseSigned
  split
  · rename_i rest heq
    injection heq with h1 _
    exact absurd h1 hm
  · rename_i rest heq
    injection heq with h1 _
    exact absurd h1 hp
  · rfl

/-- Appended trailing whitespace does not change `parseSigned`. -/
theorem parseSigned_append_ws (cs w : List Char) (hw : ∀ c ∈ w, isJsWS c = true) :
    parseSigned (cs ++ w) = parseSigned cs := by
  rcases cs with _ | ⟨c, cs'⟩
  · simp only [List.nil_append]
    cases w with
    | nil => rfl
    | cons d w' =>
      have hd := hw d (by simp)
      rw [parseSigned_cons_ne d w' (isJsWS_ne d hd '-' (by decide))
            (isJsWS_ne d hd '+' (by decide))]
      show parseUnsigned ([] ++ (d :: w')) = parseSigned []
      rw [parseUnsigned_append_ws [] (d :: w') hw]
      rfl
  · by_cases hm : c = '-'
    · subst hm
      show (parseUnsigned (cs' ++ w)).map (fun n => -n) = (parseUnsigned cs').map (fun n => -n)
      rw [parseUnsigned_append_ws cs' w hw]
    · by_cases hp : c = '+'
      · subst hp
        show parseUnsigned (cs' ++ w) = parseUnsigned cs'
        exact parseUnsigned_append_ws cs' w hw
      · rw [show (c :: cs') ++ w = c :: (cs' ++ w) from rfl,
          parseSigned_cons_ne c (cs' ++ w) hm hp, parseSigned_cons_ne c cs' hm hp,
          show (c :: (cs' ++ w)) = (c :: cs') ++ w from rfl,
          parseUnsigned_append_ws _ w hw]

/-- Surrounding whitespace padding does not change a trimmed value. -/
theorem trimChars_pad (p1 p2 l : List Char)
    (h1 : ∀ c ∈ p1, isJsWS c = true) (h2 : ∀ c ∈ p2, isJsWS c = true) :
    trimChars (p1 ++ l ++ p2) = trimChars l := by
  unfold trimChars
  rw [List.append_assoc, dropWhile_append_of_all _ _ _ h1]
  by_cases h : l.dropWhile isJsWS = []
  · have hl : ∀ c ∈ l, isJsWS c = true := by
      intro c hc
      exact List.dropWhile_eq_nil_iff.mp h c hc
    have hlp : (l ++ p2).dropWhile isJsWS = [] := by
      rw [dropWhile_append_of_all _ _ _ hl]
      exact List.dropWhile_eq_nil_iff.mpr h2
    rw [hlp, h]
  · rw [dropWhile_append_of_ne_nil _ _ _ h, List.reverse_append,
      dropWhile_append_of_all _ _ _ (fun c hc => h2 c (List.mem_reverse.mp hc))]

/-- Surrounding whitespace padding does not change `jsTrim`. -/
theorem jsTrim_pad (p1 p2 a : String)
    (h1 : ∀ c ∈ p1.data, isJsWS c = true) (h2 : ∀ c ∈ p2.data, isJsWS c = true) :
    jsTrim (p1 ++ a ++ p2) = jsTrim a := by
  unfold jsTrim
  rw [String.data_append, String.data_append, trimChars_pad _ _ _ h1 h2]

/-- Surrounding whitespace padding does not change `parseInt`. -/
theorem jsParseInt_pad (p1 p2 a : String)
    (h1 : ∀ c ∈ p1.data, isJsWS c = true) (h2 : ∀ c ∈ p2.data, isJsWS c = true) :
    jsParseInt (p1 ++ a ++ p2) = jsParseInt a := by
  unfold jsParseInt
  rw [String.data_append, String.data_append, List.append_assoc,
    dropWhile_append_of_all _ _ _ h1]
  by_cases h : a.data.dropWhile isJsWS = []
  · have hl : ∀ c ∈ a.data, isJsWS c = true := by
      intro c hc
      exact List.dropWhile_eq_nil_iff.mp h c hc
    rw [dropWhile_append_of_all _ _ _ hl, h]
    cases hp : p2.data.dropWhile isJsWS with
    | nil => rfl
    | cons d w' =>
      exact absurd hp (by rw [List.dropWhile_eq_nil_iff.mpr h2]; exact fun he => List.noConfusion he)
  · rw [dropWhile_append_of_ne_nil _ _ _ h]
    exact parseSigned_append_ws _ _ h2

/-- `configureDisplay` touches `eventsPerPage` only through its own prompt. -/
theorem configureDisplay_eventsPerPage (config : DisplayConfig) (a : ConfigAnswers) :
    (configureDisplay config a).eventsPerPage =
      (if jsTrim a.eventsPerPage != "" then
        ((jsParseInt a.eventsPerPage).map (max 10)).map (min 100)
       else config.eventsPerPage) := by
  unfold configureDisplay
  by_cases h1 : jsTrim a.colors != "" <;> by_cases h2 : jsTrim a.dateFormat != "" <;>
    by_cases h3 : jsTrim a.detailedView != "" <;>
      by_cases h4 : jsTrim a.eventsPerPage != "" <;>
        simp [h1, h2, h3, h4]

/-- Witness for C5 at concrete inputs, in particular the claim's
`PushEvent` with two empty commit objects and an off-table type. -/
theorem C5_formatEventTitle_table_witness :
    ("GollumEvent" ≠ "PushEvent" ∧ "GollumEvent" ≠ "CreateEvent" ∧
     "GollumEvent" ≠ "IssuesEvent" ∧ "GollumEvent" ≠ "PullRequestEvent" ∧
     "GollumEvent" ≠ "WatchEvent" ∧ "GollumEvent" ≠ "ForkEvent" ∧
     "GollumEvent" ≠ "DeleteEvent" ∧ "GollumEvent" ≠ "ReleaseEvent") ∧
    (formatEventTitle ⟨"WatchEvent", ⟨"acme/widgets"⟩, {}, ""⟩ = "Starred acme/widgets" ∧
     formatEventTitle ⟨"PushEvent", ⟨"r"⟩,
        { commits := some [⟨none, none⟩, ⟨none, none⟩] }, ""⟩ =
       "Pushed " ++ toString ([(⟨none, none⟩ : Commit), ⟨none, none⟩].length) ++
         " commit(s) to " ++ "r" ∧
     formatEventTitle ⟨"PushEvent", ⟨"r"⟩, {}, ""⟩ = "Pushed 0 commit(s) to " ++ "r" ∧
     formatEventTitle ⟨"GollumEvent", ⟨"r"⟩, {}, ""⟩ = "GollumEvent" ++ " on " ++ "r") :=
  ⟨by decide,
   C5_formatEventTitle_table "r" "GollumEvent" {} [⟨none, none⟩, ⟨none, none⟩] (by decide)⟩

/-- C4 counterexample: the answer "abc" is non-blank, but `parseInt('abc')`
is NaN and NaN propagates through `Math.max`/`Math.min`, so the stored
`eventsPerPage` is NaN (modelled `none`) — not an integer in [10, 100] as
the claim asserts for every non-blank input. -/
theorem C4_counterexample :
    jsTrim "abc" ≠ "" ∧
    (configureDisplay defaultConfig ⟨"", "", "", "abc"⟩).eventsPerPage = none := by
  exact ⟨by decide, by decide⟩

/-- C4 (amended): for every non-blank `eventsPerPage` answer that `parseInt`
accepts (yields a number n), the stored value is the clamp of n into
[10, 100], hence an integer in range; a blank (whitespace-only) answer
leaves the value unchanged; inputs 5, 250 and 42 store 10, 100 and 42.
(A non-blank answer that `parseInt` rejects stores NaN instead — see the
counterexample.) -/
theorem C4_eventsPerPage_clamped (config : DisplayConfig) (a : ConfigAnswers) (n : Int)
    (hblank : jsTrim a.eventsPerPage ≠ "")
    (hparse : jsParseInt a.eventsPerPage = some n) :
    ((configureDisplay config a).eventsPerPage = some (min 100 (max 10 n)) ∧
     10 ≤ min 100 (max 10 n) ∧ min 100 (max 10 n) ≤ 100) ∧
    (∀ b : ConfigAnswers, jsTrim b.eventsPerPage = "" →
      (configureDisplay config b).eventsPerPage = config.eventsPerPage) ∧
    (configureDisplay config ⟨"", "", "", "5"⟩).eventsPerPage = some 10 ∧
    (configureDisplay config ⟨"", "", "", "250"⟩).eventsPerPage = some 100 ∧
    (configureDisplay config ⟨"", "", "", "42"⟩).eventsPerPage = some 42 := by
  refine ⟨⟨?_, by omega, by omega⟩, ?_, ?_, ?_, ?_⟩
  · rw [configureDisplay_eventsPerPage]
    simp [hblank, hparse]
  · intro b hb
    rw [configureDisplay_eventsPerPage]
    simp [hb]
  · rw [configureDisplay_eventsPerPage]
    rfl
  · rw [configureDisplay_eventsPerPage]
    rfl
  · rw [configureDisplay_eventsPerPage]
    rfl

/-- Witness for C4 (amended) at the concrete answer "42". -/
theorem C4_eventsPerPage_clamped_witness :
    (jsTrim "42" ≠ "" ∧ jsParseInt "42" = some 42) ∧
    (((configureDisplay defaultConfig ⟨"", "", "", "42"⟩).eventsPerPage =
        some (min 100 (max 10 42)) ∧
      10 ≤ min 100 (max 10 (42 : Int)) ∧ min 100 (max 10 (42 : Int)) ≤ 100) ∧
     (∀ b : ConfigAnswers, jsTrim b.eventsPerPage = "" →
       (configureDisplay defaultConfig b).eventsPerPage = defaultConfig.eventsPerPage) ∧
     (configureDisplay defaultConfig ⟨"", "", "", "5"⟩).eventsPerPage = some 10 ∧
     (configureDisplay defaultConfig ⟨"", "", "", "250"⟩).eventsPerPage = some 100 ∧
     (configureDisplay defaultConfig ⟨"", "", "", "42"⟩).eventsPerPage = some 42) :=
  ⟨⟨by decide, by decide⟩,
   C4_eventsPerPage_clamped defaultConfig ⟨"", "", "", "42"⟩ 42 (by decide) (by decide)⟩

/-- C9 counterexample: the reconfiguration answer for `colors` is
interpreted untrimmed (`answer.toLowerCase() === 'true'`), so " true"
(with a leading space) stores `false` while "true" stores `true`: adding
surrounding whitespace changes the resulting state, contradicting the
claim that every interactive answer is trimmed before interpretation. -/
theorem C9_counterexample :
    (configureDisplay defaultConfig ⟨" true", "", "", ""⟩).colors = false ∧
    (configureDisplay defaultConfig ⟨"true", "", "", ""⟩).colors = true := by
  exact ⟨by decide, by decide⟩

/-- C9 (amended): the menu selection, filter sub-menu selection, filter
value and date-range prompts all interpret the trimmed answer, so
surrounding whitespace does not change their result; in the reconfigure
flow only the blank test trims, but the `eventsPerPage` interpretation is
still whitespace-insensitive because `parseInt` skips leading whitespace
and stops at the first non-digit. (The boolean and `dateFormat`
reconfiguration answers are interpreted untrimmed — see the
counterexample.) -/
theorem C9_trimmed_prompts (p1 p2 a : String) (cfg : DisplayConfig)
    (h1 : ∀ c ∈ p1.data, isJsWS c = true) (h2 : ∀ c ∈ p2.data, isJsWS c = true) :
    showMenu (p1 ++ a ++ p2) = showMenu a ∧
    showFilterMenu (p1 ++ a ++ p2) = showFilterMenu a ∧
    readFilterValue (p1 ++ a ++ p2) = readFilterValue a ∧
    readDateRange (p1 ++ a ++ p2) = readDateRange a ∧
    configureDisplay cfg ⟨"", "", "", p1 ++ a ++ p2⟩ =
      configureDisplay cfg ⟨"", "", "", a⟩ := by
  have ht := jsTrim_pad p1 p2 a h1 h2
  have hp := jsParseInt_pad p1 p2 a h1 h2
  refine ⟨ht, ht, ht, ?_, ?_⟩
  · unfold readDateRange
    rw [ht]
  · unfold configureDisplay
    rw [ht, hp]

/-- Witness for C9 (amended) with two-space and one-space padding around
the answer "42". -/
theorem C9_trimmed_prompts_witness :
    ((∀ c ∈ ("  " : String).data, isJsWS c = true) ∧
     (∀ c ∈ (" " : String).data, isJsWS c = true)) ∧
    (showMenu ("  " ++ "42" ++ " ") = showMenu "42" ∧
     showFilterMenu ("  " ++ "42" ++ " ") = showFilterMenu "42" ∧
     readFilterValue ("  " ++ "42" ++ " ") = readFilterValue "42" ∧
     readDateRange ("  " ++ "42" ++ " ") = readDateRange "42" ∧
     configureDisplay defaultConfig ⟨"", "", "", "  " ++ "42" ++ " "⟩ =
       configureDisplay defaultConfig ⟨"", "", "", "42"⟩) :=
  ⟨⟨by decide, by decide⟩,
   C9_trimmed_prompts "  " " " "42" defaultConfig (by decide) (by decide)⟩

/-! ## Fetch classification and one-shot helper (C1, C2) -/

/-- A minimal `JSON.parse` stand-in accepting the empty-array body, used to
instantiate the fetch model at concrete inputs. -/
def parseEmptyArr (s : String) : Option Json :=
  if s == "[]" then some (Json.arr []) else none

/-- C2 counterexample: a 201 response with a valid JSON body — a success
status in the claim's 2xx sense — is rejected with `HttpError 201`: the
source's handler treats only status exactly 200 as success. -/
theorem C2_counterexample :
    fetchGitHubActivity parseEmptyArr "alice" ⟨201, "[]"⟩ =
      .error (.httpError 201) := by
  rfl

/-- C2 (amended): `fetchGitHubActivity` resolves with the parsed body
exactly when the status is exactly 200 and the body parses; it rejects with
the parse error exactly on a 200 status whose body does not parse, with the
not-found error exactly on 404, with the rate-limit error exactly on 403,
and with the generic HTTP error carrying the status code on every other
status (including non-200 2xx statuses). -/
theorem C2_fetch_classification (parseJson : String → Option Json) (username : String)
    (res : HttpResponse) :
    (∀ v, fetchGitHubActivity parseJson username res = .ok v ↔
      res.statusCode = 200 ∧ parseJson res.body = some v) ∧
    (fetchGitHubActivity parseJson username res = .error .parseError ↔
      res.statusCode = 200 ∧ parseJson res.body = none) ∧
    (fetchGitHubActivity parseJson username res = .error (.notFound username) ↔
      res.statusCode = 404) ∧
    (fetchGitHubActivity parseJson username res = .error .rateLimit ↔
      res.statusCode = 403) ∧
    (∀ c, fetchGitHubActivity parseJson username res = .error (.httpError c) ↔
      res.statusCode = c ∧ c ≠ 200 ∧ c ≠ 404 ∧ c ≠ 403) := by
  unfold fetchGitHubActivity
  by_cases h200 : res.statusCode = 200
  · cases hp : parseJson res.body with
    | none =>
      refine ⟨?_, ?_, ?_, ?_, ?_⟩ <;> simp [h200, hp]
    | some w =>
      refine ⟨?_, ?_, ?_, ?_, ?_⟩ <;> simp [h200, hp]
  · by_cases h404 : res.statusCode = 404
    · refine ⟨?_, ?_, ?_, ?_, ?_⟩ <;> simp [h404]
    · by_cases h403 : res.statusCode = 403
      · refine ⟨?_, ?_, ?_, ?_, ?_⟩ <;> simp [h403]
      · have e200 : (res.statusCode == 200) = false := by simp [h200]
        have e404 : (res.statusCode == 404) = false := by simp [h404]
        have e403 : (res.statusCode == 403) = false := by simp [h403]
        refine ⟨?_, ?_, ?_, ?_, ?_⟩ <;> simp [e200, e404, e403, h200, h404, h403]

/-! Infix facts about the error messages, for C1. -/

/-- The not-found message contains "not found", whatever the username. -/
theorem notFound_message_includes (u : String) :
    jsIncludes (FetchError.notFound u).message "not found" = true := by
  unfold jsIncludes FetchError.message
  refine decide_eq_true ?_
  refine ⟨("User " ++ sq ++ u ++ sq ++ " ").data, [], ?_⟩
  have hx : ((" " : String).data ++ ("not found" : String).data : List Char) =
      (" not found" : String).data := by decide
  simp only [String.data_append, List.append_nil, List.append_assoc, hx]

/-- A string whose data contains "not found" contains the letter n. -/
theorem includes_notfound_mem (s : String)
    (h : jsIncludes s "not found" = true) : 'n' ∈ s.data := by
  unfold jsIncludes at h
  exact (of_decide_eq_true h).subset (by decide)

/-- Digit characters stay digit characters through `Nat.toDigitsCore`
(base 10). -/
theorem toDigitsCore_digits (fuel : Nat) :
    ∀ (n : Nat) (ds : List Char), (∀ c ∈ ds, c.isDigit = true) →
      ∀ c ∈ Nat.toDigitsCore 10 fuel n ds, c.isDigit = true := by
  induction fuel with
  | zero => intro n ds hds c hc; exact hds c hc
  | succ f ih =>
    intro n ds hds c hc
    have hdigit : (Nat.digitChar (n % 10)).isDigit = true := by
      have hm : n % 10 < 10 := Nat.mod_lt _ (by omega)
      interval_cases h : n % 10 <;> decide
    simp only [Nat.toDigitsCore] at hc
    by_cases h : n / 10 = 0
    · rw [if_pos h] at hc
      rcases List.mem_cons.mp hc with h1 | h1
      · subst h1; exact hdigit
      · exact hds c h1
    · rw [if_neg h] at hc
      refine ih (n / 10) (Nat.digitChar (n % 10) :: ds) ?_ c hc
      intro d hd
      rcases List.mem_cons.mp hd with h1 | h1
      · subst h1; exact hdigit
      · exact hds d h1

/-- Every character of `Nat.repr` is a decimal digit. -/
theorem repr_chars_digit (n : Nat) : ∀ c ∈ (Nat.repr n).data, c.isDigit = true := by
  intro c hc
  exact toDigitsCore_digits (n + 1) n [] (by intro d hd; cases hd) c hc

/-- The generic HTTP-error message never contains "not found" (it has no
letter n: the fixed prefix has none and the status code renders as
digits). -/
theorem httpError_message_no_notfound (code : Nat) :
    jsIncludes (FetchError.httpError code).message "not found" = false := by
  cases h : jsIncludes (FetchError.httpError code).message "not found" with
  | false => rfl
  | true =>
    exfalso
    have hn := includes_notfound_mem _ h
    rw [show (FetchError.httpError code).message = "HTTP Error: " ++ Nat.repr code from rfl,
      String.data_append] at hn
    rcases List.mem_append.mp hn with h1 | h2
    · exact absurd h1 (by decide)
    · exact absurd (repr_chars_digit code 'n' h2) (by decide)

/-- C1 counterexample: a connection error whose transport message happens to
contain "not found" is swallowed into the absent result instead of being
propagated, because `getUserActivity` distinguishes errors only by the
substring test `error.message.includes('not found')`. -/
theorem C1_counterexample :
    getUserActivity "alice" (.error (.connectionError "host not found")) = .ok none := by
  rfl

/-- C1 (amended): `getUserActivity` resolves to the absent result exactly
for errors whose message contains "not found": the not-found error is
always swallowed into null (never thrown), and the rate-limit, parse and
generic HTTP errors always propagate; a connection error propagates
precisely when its message does not contain "not found" (the counterexample
shows one that is swallowed). -/
theorem C1_getUserActivity_errors (username u m : String) (code : Nat)
    (hm : jsIncludes (FetchError.connectionError m).message "not found" = false) :
    getUserActivity username (.error (.notFound u)) = .ok none ∧
    getUserActivity username (.error .rateLimit) = .error .rateLimit ∧
    getUserActivity username (.error .parseError) = .error .parseError ∧
    getUserActivity username (.error (.httpError code)) = .error (.httpError code) ∧
    getUserActivity username (.error (.connectionError m)) =
      .error (.connectionError m) := by
  refine ⟨?_, by rfl, by rfl, ?_, ?_⟩
  · simp [getUserActivity, notFound_message_includes u]
  · simp [getUserActivity, httpError_message_no_notfound code]
  · simp [getUserActivity, hm]

/-- Witness for C1 (amended) at concrete error values. -/
theorem C1_getUserActivity_errors_witness :
    jsIncludes (FetchError.connectionError "ECONNREFUSED").message "not found" = false ∧
    (getUserActivity "alice" (.error (.notFound "bob")) = .ok none ∧
     getUserActivity "alice" (.error .rateLimit) = .error .rateLimit ∧
     getUserActivity "alice" (.error .parseError) = .error .parseError ∧
     getUserActivity "alice" (.error (.httpError 500)) = .error (.httpError 500) ∧
     getUserActivity "alice" (.error (.connectionError "ECONNREFUSED")) =
       .error (.connectionError "ECONNREFUSED")) :=
  ⟨by decide, C1_getUserActivity_errors "alice" "bob" "ECONNREFUSED" 500 (by decide)⟩

/-! ## Formatter safety (C6) -/

/-- Whether an event's payload carries every nested object the detailed
view dereferences unguarded: each push commit's `sha` and `message`, and
the `issue`/`pull_request`/`release` objects of their event types. -/
def detailSafe (event : Event) : Bool :=
  if event.type == "PushEvent" then
    (event.payload.commits.getD []).all (fun c => c.sha.isSome && c.message.isSome)
  else if event.type == "IssuesEvent" then event.payload.issue.isSome
  else if event.type == "PullRequestEvent" then event.payload.pull_request.isSome
  else if event.type == "ReleaseEvent" then event.payload.release.isSome
  else true

/-- Mapping the success value keeps success. -/
theorem exceptMap_isOk (x : Except Unit String) (f : String → String) :
    (x.map f).isOk = x.isOk := by
  cases x <;> rfl

/-- Success test on a success value. -/
theorem toBool_ok {e a : Type} (x : a) : (Except.ok x : Except e a).toBool = true := rfl

/-- Success test on an error value. -/
theorem toBool_error {e a : Type} (err : e) :
    (Except.error err : Except e a).toBool = false := rfl

/-- The push detail block succeeds exactly when every commit carries both
`sha` and `message`. -/
theorem commitLines_isOk (cs : List Commit) :
    (commitLines cs).isOk = cs.all (fun c => c.sha.isSome && c.message.isSome) := by
  induction cs with
  | nil => rfl
  | cons c cs ih =>
    cases hs : c.sha with
    | none => simp [commitLines, hs, toBool_error]
    | some sha =>
      cases hm : c.message with
      | none => simp [commitLines, hs, hm, toBool_error]
      | some msg =>
        simp only [commitLines, hs, hm, List.all_cons, exceptMap_isOk, ih]
        simp [hs, hm]

/-- The detail block succeeds exactly when the detailed view is off or the
payload is detail-safe. -/
theorem eventDetails_isOk (event : Event) (config : DisplayConfig) :
    (eventDetails event config).isOk = (!config.detailedView || detailSafe event) := by
  unfold eventDetails detailSafe
  by_cases hd : config.detailedView
  · by_cases ht1 : event.type == "PushEvent"
    · simp [hd, ht1, commitLines_isOk]
    · by_cases ht2 : event.type == "IssuesEvent"
      · cases hi : event.payload.issue <;>
          simp [hd, ht1, ht2, hi, toBool_ok, toBool_error]
      · by_cases ht3 : event.type == "PullRequestEvent"
        · cases hp : event.payload.pull_request <;>
            simp [hd, ht1, ht2, ht3, hp, toBool_ok, toBool_error]
        · by_cases ht4 : event.type == "ReleaseEvent"
          · cases hr : event.payload.release <;>
              simp [hd, ht1, ht2, ht3, ht4, hr, toBool_ok, toBool_error]
          · simp [hd, ht1, ht2, ht3, ht4, toBool_ok]
  · simp [hd, toBool_ok]

/-- C6 counterexample: with the default configuration (detailed view on,
local date format) a `PushEvent` whose single commit lacks `sha` makes the
formatter throw (`c.sha.slice` on `undefined`), where the claim says
missing nested payload fields never cause a failure. -/
theorem C6_counterexample :
    formatEvent ⟨"PushEvent", ⟨"r"⟩, { commits := some [⟨none, some "msg"⟩] }, "t"⟩
      defaultConfig = .error () := by
  rfl

/-- C6 (amended): formatting succeeds exactly when the timestamp rendering
survives (always, except an ISO date format on an unparseable `created_at`)
and, if the detailed view is on, the payload carries the nested objects the
detail block dereferences unguarded: it throws precisely on a `PushEvent`
commit lacking `sha` or `message`, or an `IssuesEvent` / `PullRequestEvent`
/ `ReleaseEvent` payload lacking its `issue` / `pull_request` / `release`
object; in the title and in all other detail fields, missing nested fields
degrade to "undefined"/empty/zero renderings instead of failing. -/
theorem C6_formatEvent_throws (event : Event) (config : DisplayConfig) :
    (formatEvent event config).isOk =
      ((config.dateFormat != "iso" || (jsDate event.created_at).isSome) &&
       (!config.detailedView || detailSafe event)) := by
  rw [← eventDetails_isOk event config]
  unfold formatEvent formatDate
  by_cases hf : config.dateFormat == "iso"
  · cases hj : jsDate event.created_at with
    | none => simp [hf, hj, toBool_error, bne]
    | some t =>
      cases he : eventDetails event config with
      | error e => cases e; simp [hf, hj, he, toBool_ok, toBool_error, bne]
      | ok d => simp [hf, hj, he, toBool_ok, bne]
  · cases he : eventDetails event config with
    | error e => cases e; simp [hf, he, toBool_ok, toBool_error, bne]
    | ok d => simp [hf, he, toBool_ok, bne]

/-! ## Export roundtrip (C7) -/

/-- Commit encode/decode roundtrip. -/
theorem decodeCommit_round (c : Commit) : decodeCommit (commitToJson c) = some c := by
  rcases c with ⟨sha, message⟩
  cases sha <;> cases message <;> rfl

/-- Label encode/decode roundtrip. -/
theorem decodeLabel_round (l : Label) : decodeLabel (labelToJson l) = some l := by
  rcases l with ⟨name⟩
  cases name <;> rfl

/-- `decodeList` inverts an elementwise-encoded array. -/
theorem decodeList_round {a : Type} (dec : Json → Option a) (enc : a → Json)
    (h : ∀ x, dec (enc x) = some x) (xs : List a) :
    decodeList dec (xs.map enc) = some xs := by
  induction xs with
  | nil => rfl
  | cons x xs ih => simp [decodeList, h, ih]

/-- Commit list encode/decode roundtrip. -/
theorem decodeCommitList_round (cs : List Commit) :
    decodeList decodeCommit (cs.map commitToJson) = some cs :=
  decodeList_round _ _ decodeCommit_round cs

/-- Label list encode/decode roundtrip. -/
theorem decodeLabelList_round (ls : List Label) :
    decodeList decodeLabel (ls.map labelToJson) = some ls :=
  decodeList_round _ _ decodeLabel_round ls

/-- Lookup finds the head property with the queried key. -/
theorem getF_cons_self (k : String) (v : Json) (fs : List (String × Json)) :
    getF ((k, v) :: fs) k = some v := by
  unfold getF
  rw [List.find?_cons_of_pos _ (by simp)]
  rfl

/-- Lookup skips a head property with a different key. -/
theorem getF_cons_ne (k k' : String) (v : Json) (fs : List (String × Json))
    (h : (k' == k) = false) :
    getF ((k', v) :: fs) k = getF fs k := by
  unfold getF
  rw [List.find?_cons_of_neg _ (by simp [h])]

/-- Lookup skips a leading optional property with a different key. -/
theorem getF_optF_ne (k k' : String) (v : Option Json) (fs : List (String × Json))
    (h : (k' == k) = false) :
    getF (optF k' v ++ fs) k = getF fs k := by
  cases v with
  | none => rfl
  | some j => exact getF_cons_ne k k' j fs h

/-- Lookup of a leading optional property's own key, when that key occurs
nowhere later, yields exactly the optional value. -/
theorem getF_optF_self (k : String) (v : Option Json) (fs : List (String × Json))
    (habsent : getF fs k = none) :
    getF (optF k v ++ fs) k = v := by
  cases v with
  | none => exact habsent
  | some j => exact getF_cons_self k j fs

/-- Lookup of a different key on a single optional property. -/
theorem getF_optF_ne_single (k k' : String) (v : Option Json)
    (h : (k' == k) = false) :
    getF (optF k' v) k = none := by
  cases v with
  | none => rfl
  | some j =>
    rw [show optF k' (some j) = [(k', j)] from rfl, getF_cons_ne k k' j [] h]
    rfl

/-- Lookup of the key of a final optional property. -/
theorem getF_optF_self_single (k : String) (v : Option Json) :
    getF (optF k v) k = v := by
  cases v with
  | none => rfl
  | some j =>
    rw [show optF k (some j) = [(k, j)] from rfl]
    exact getF_cons_self k j []

/-- The number property of an encoded issue. -/
theorem issueFields_number (i : Issue) :
    getF (issueFields i) "number" = i.number.map .num := by
  unfold issueFields
  simp only [List.append_assoc]
  refine getF_optF_self _ _ _ ?_
  rw [getF_optF_ne _ _ _ _ (by decide), getF_optF_ne _ _ _ _ (by decide)]
  exact getF_optF_ne_single _ _ _ (by decide)

/-- The title property of an encoded issue. -/
theorem issueFields_title (i : Issue) :
    getF (issueFields i) "title" = i.title.map .str := by
  unfold issueFields
  simp only [List.append_assoc]
  rw [getF_optF_ne _ _ _ _ (by decide)]
  refine getF_optF_self _ _ _ ?_
  rw [getF_optF_ne _ _ _ _ (by decide)]
  exact getF_optF_ne_single _ _ _ (by decide)

/-- The labels property of an encoded issue. -/
theorem issueFields_labels (i : Issue) :
    getF (issueFields i) "labels" =
      i.labels.map (fun ls => .arr (ls.map labelToJson)) := by
  unfold issueFields
  simp only [List.append_assoc]
  rw [getF_optF_ne _ _ _ _ (by decide), getF_optF_ne _ _ _ _ (by decide)]
  refine getF_optF_self _ _ _ ?_
  exact getF_optF_ne_single _ _ _ (by decide)

/-- The html_url property of an encoded issue. -/
theorem issueFields_html_url (i : Issue) :
    getF (issueFields i) "html_url" = i.html_url.map .str := by
  unfold issueFields
  simp only [List.append_assoc]
  rw [getF_optF_ne _ _ _ _ (by decide), getF_optF_ne _ _ _ _ (by decide),
    getF_optF_ne _ _ _ _ (by decide)]
  exact getF_optF_self_single _ _

/-- Issue encode/decode roundtrip. -/
theorem decodeIssue_round (i : Issue) : decodeIssue (issueToJson i) = some i := by
  have hn := issueFields_number i
  have ht := issueFields_title i
  have hl := issueFields_labels i
  have hu := issueFields_html_url i
  rcases i with ⟨n, t, ls, u⟩
  unfold decodeIssue issueToJson
  refine congrArg some ?_
  rw [Issue.mk.injEq]
  refine ⟨?_, ?_, ?_, ?_⟩
  · rw [hn]
    cases n <;> rfl
  · rw [ht]
    cases t <;> rfl
  · rw [hl]
    cases ls with
    | none => rfl
    | some l => exact decodeLabelList_round l
  · rw [hu]
    cases u <;> rfl

/-- Pull-request encode/decode roundtrip. -/
theorem decodePR_round (p : PullRequest) : decodePR (prToJson p) = some p := by
  rcases p with ⟨number, title, additions, deletions, url⟩
  cases number <;> cases title <;> cases additions <;> cases deletions <;> cases url <;> rfl

/-- Forkee encode/decode roundtrip. -/
theorem decodeForkee_round (f : Forkee) : decodeForkee (forkeeToJson f) = some f := by
  rcases f with ⟨full_name⟩
  cases full_name <;> rfl

/-- Release encode/decode roundtrip. -/
theorem decodeRelease_round (r : Release) : decodeRelease (releaseToJson r) = some r := by
  rcases r with ⟨tag_name, name, url⟩
  cases tag_name <;> cases name <;> cases url <;> rfl

/-- The commits property of an encoded payload. -/
theorem payloadFields_commits (p : Payload) :
    getF (payloadFields p) "commits" =
      p.commits.map (fun cs => .arr (cs.map commitToJson)) := by
  unfold payloadFields
  simp only [List.append_assoc]
  refine getF_optF_self _ _ _ ?_
  rw [getF_optF_ne _ _ _ _ (by decide), getF_optF_ne _ _ _ _ (by decide),
    getF_optF_ne _ _ _ _ (by decide), getF_optF_ne _ _ _ _ (by decide),
    getF_optF_ne _ _ _ _ (by decide), getF_optF_ne _ _ _ _ (by decide)]
  exact getF_optF_ne_single _ _ _ (by decide)

/-- The ref_type property of an encoded payload. -/
theorem payloadFields_ref_type (p : Payload) :
    getF (payloadFields p) "ref_type" = p.ref_type.map .str := by
  unfold payloadFields
  simp only [List.append_assoc]
  rw [getF_optF_ne _ _ _ _ (by decide)]
  refine getF_optF_self _ _ _ ?_
  rw [getF_optF_ne _ _ _ _ (by decide), getF_optF_ne _ _ _ _ (by decide),
    getF_optF_ne _ _ _ _ (by decide), getF_optF_ne _ _ _ _ (by decide),
    getF_optF_ne _ _ _ _ (by decide)]
  exact getF_optF_ne_single _ _ _ (by decide)

/-- The ref property of an encoded payload. -/
theorem payloadFields_ref (p : Payload) :
    getF (payloadFields p) "ref" = p.ref.map .str := by
  unfold payloadFields
  simp only [List.append_assoc]
  rw [getF_optF_ne _ _ _ _ (by decide), getF_optF_ne _ _ _ _ (by decide)]
  refine getF_optF_self _ _ _ ?_
  rw [getF_optF_ne _ _ _ _ (by decide), getF_optF_ne _ _ _ _ (by decide),
    getF_optF_ne _ _ _ _ (by decide), getF_optF_ne _ _ _ _ (by decide)]
  exact getF_optF_ne_single _ _ _ (by decide)

/-- The action property of an encoded payload. -/
theorem payloadFields_action (p : Payload) :
    getF (payloadFields p) "action" = p.action.map .str := by
  unfold payloadFields
  simp only [List.append_assoc]
  rw [getF_optF_ne _ _ _ _ (by decide), getF_optF_ne _ _ _ _ (by decide),
    getF_optF_ne _ _ _ _ (by decide)]
  refine getF_optF_self _ _ _ ?_
  rw [getF_optF_ne _ _ _ _ (by decide), getF_optF_ne _ _ _ _ (by decide),
    getF_optF_ne _ _ _ _ (by decide)]
  exact getF_optF_ne_single _ _ _ (by decide)

/-- The issue property of an encoded payload. -/
theorem payloadFields_issue (p : Payload) :
    getF (payloadFields p) "issue" = p.issue.map issueToJson := by
  unfold payloadFields
  simp only [List.append_assoc]
  rw [getF_optF_ne _ _ _ _ (by decide), getF_optF_ne _ _ _ _ (by decide),
    getF_optF_ne _ _ _ _ (by decide), getF_optF_ne _ _ _ _ (by decide)]
  refine getF_optF_self _ _ _ ?_
  rw [getF_optF_ne _ _ _ _ (by decide), getF_optF_ne _ _ _ _ (by decide)]
  exact getF_optF_ne_single _ _ _ (by decide)

/-- The pull_request property of an encoded payload. -/
theorem payloadFields_pull_request (p : Payload) :
    getF (payloadFields p) "pull_request" = p.pull_request.map prToJson := by
  unfold payloadFields
  simp only [List.append_assoc]
  rw [getF_optF_ne _ _ _ _ (by decide), getF_optF_ne _ _ _ _ (by decide),
    getF_optF_ne _ _ _ _ (by decide), getF_optF_ne _ _ _ _ (by decide),
    getF_optF_ne _ _ _ _ (by decide)]
  refine getF_optF_self _ _ _ ?_
  rw [getF_optF_ne _ _ _ _ (by decide)]
  exact getF_optF_ne_single _ _ _ (by decide)

/-- The forkee property of an encoded payload. -/
theorem payloadFields_forkee (p : Payload) :
    getF (payloadFields p) "forkee" = p.forkee.map forkeeToJson := by
  unfold payloadFields
  simp only [List.append_assoc]
  rw [getF_optF_ne _ _ _ _ (by decide), getF_optF_ne _ _ _ _ (by decide),
    getF_optF_ne _ _ _ _ (by decide), getF_optF_ne _ _ _ _ (by decide),
    getF_optF_ne _ _ _ _ (by decide), getF_optF_ne _ _ _ _ (by decide)]
  refine getF_optF_self _ _ _ ?_
  exact getF_optF_ne_single _ _ _ (by decide)

/-- The release property of an encoded payload. -/
theorem payloadFields_release (p : Payload) :
    getF (payloadFields p) "release" = p.release.map releaseToJson := by
  unfold payloadFields
  simp only [List.append_assoc]
  rw [getF_optF_ne _ _ _ _ (by decide), getF_optF_ne _ _ _ _ (by decide),
    getF_optF_ne _ _ _ _ (by decide), getF_optF_ne _ _ _ _ (by decide),
    getF_optF_ne _ _ _ _ (by decide), getF_optF_ne _ _ _ _ (by decide),
    getF_optF_ne _ _ _ _ (by decide)]
  exact getF_optF_self_single _ _

/-- Payload encode/decode roundtrip. -/
theorem decodePayload_round (p : Payload) : decodePayload (payloadToJson p) = some p := by
  have h1 := payloadFields_commits p
  have h2 := payloadFields_ref_type p
  have h3 := payloadFields_ref p
  have h4 := payloadFields_action p
  have h5 := payloadFields_issue p
  have h6 := payloadFields_pull_request p
  have h7 := payloadFields_forkee p
  have h8 := payloadFields_release p
  rcases p with ⟨c, rt, rf, a, i, pr, fk, rl⟩
  unfold decodePayload payloadToJson
  refine congrArg some ?_
  rw [Payload.mk.injEq]
  refine ⟨?_, ?_, ?_, ?_, ?_, ?_, ?_, ?_⟩
  · rw [h1]
    cases c with
    | none => rfl
    | some cs => exact decodeCommitList_round cs
  · rw [h2]
    cases rt <;> rfl
  · rw [h3]
    cases rf <;> rfl
  · rw [h4]
    cases a <;> rfl
  · rw [h5]
    cases i with
    | none => rfl
    | some iv => exact decodeIssue_round iv
  · rw [h6]
    cases pr with
    | none => rfl
    | some pv => exact decodePR_round pv
  · rw [h7]
    cases fk with
    | none => rfl
    | some fv => exact decodeForkee_round fv
  · rw [h8]
    cases rl with
    | none => rfl
    | some rv => exact decodeRelease_round rv

/-- Event encode/decode roundtrip. -/
theorem decodeEvent_round (e : Event) : decodeEvent (eventToJson e) = some e := by
  rcases e with ⟨t, ⟨rn⟩, p, ca⟩
  rw [show decodeEvent (eventToJson ⟨t, ⟨rn⟩, p, ca⟩) =
      (decodePayload (payloadToJson p)).bind
        (fun payload => some ⟨t, ⟨rn⟩, payload, ca⟩) from rfl,
    decodePayload_round]
  rfl

/-- The exported file decodes back to exactly the serialized list. -/
theorem decodeEventList_saveToFile (events : List Event) :
    decodeEventList (saveToFile events) = some events := by
  show decodeList decodeEvent (events.map eventToJson) = some events
  exact decodeList_round decodeEvent eventToJson decodeEvent_round events

/-- C7: the written file's parsed JSON content deep-equals exactly the
in-memory list passed to the exporter (the encode/decode roundtrip is the
identity), and the session's save action serializes the raw
`currentEvents`, so the exported content is independent of the active
filter criteria. -/
theorem C7_save_roundtrip (st : SessionState) :
    decodeEventList (mainSaveContent st) = some st.currentEvents ∧
    (∀ criteria, mainSaveContent { st with filterCriteria := criteria } =
      mainSaveContent st) ∧
    (∀ events, decodeEventList (saveToFile events) = some events) :=
  ⟨decodeEventList_saveToFile _, fun _ => rfl, fun events => decodeEventList_saveToFile events⟩

end GithubActivity
